import Mathlib

/-!
Verification development for the KomootExport repository.

The repository contains two offline data-transformation utilities over GPX
track files, embedded here:

* the Track Merger (`merge_by_date.go`): discovers GPX files, filters them by
  a date window on their first point timestamp, sorts them chronologically and
  merges them into one output GPX document, optionally synthesizing
  "Gap Connection" points between consecutive rides;
* the Format Converter (`gpx2kml.go`): converts one GPX document into a KML
  document with "normal"/"gap" styled line placemarks and optional gap
  waypoint placemarks.

Modelling conventions:
* Go `float64` coordinate/elevation values are modelled as exact rationals
  (`ℚ`); the claims under study never depend on floating-point rounding.
* Go `time.Time` values are modelled as milliseconds since the Unix epoch
  (`Int`); both `time.Parse` layouts used by the merger produce UTC instants,
  and `Before`/`After` are strict `<`/`>` on instants.
* Effects (process exit, file writes, printed messages) are modelled by an
  explicit outcome type produced by the merger entry point.
-/

/-! ## GPX data model

`merge_by_date.go` declares `GPX`/`Track`/`TrackSegment`/`TrackPoint` and
`gpx2kml.go` declares the structurally identical `GpxRoot`/`GpxTrack`/
`GpxSegment`/`GpxPoint`; they are modelled once.  Optional XML fields carry
their Go zero values ("" or 0) when absent, exactly as `encoding/xml` does. -/

structure TrackPoint where
  lat : ℚ
  lon : ℚ
  ele : ℚ
  time : String
  name : String
  desc : String
deriving DecidableEq, Repr

structure TrackSegment where
  points : List TrackPoint
deriving DecidableEq, Repr

structure Track where
  name : String
  segments : List TrackSegment
deriving DecidableEq, Repr

structure GPX where
  version : String
  creator : String
  xmlns : String
  tracks : List Track
deriving DecidableEq, Repr

/-- The zero value of the Go `TrackPoint` struct. -/
def zeroPoint : TrackPoint :=
  { lat := 0, lon := 0, ele := 0, time := "", name := "", desc := "" }

/-- `RideInfo` from `merge_by_date.go`; `date` is the parsed ride timestamp in
milliseconds since the Unix epoch. -/
structure RideInfo where
  filePath : String
  name : String
  date : Int
  gpx : GPX
deriving DecidableEq, Repr

/-! ## Time parsing

The merger parses dates with layout `2006-01-02` and point timestamps with
layout `2006-01-02T15:04:05.000Z` via Go `time.Parse`.  Both are modelled as
validating fixed-position parsers returning milliseconds since the Unix epoch
(midnight UTC for the date layout).  Range validation mirrors Go:
month 1..12, day 1..daysIn(month, year), hour < 24, minute < 60, second < 60,
exactly the digit counts demanded by the layout, and the literal separators. -/

def digitVal (c : Char) : Option Nat :=
  if '0' ≤ c ∧ c ≤ '9' then some (c.toNat - '0'.toNat) else none

def num2 (a b : Char) : Option Nat := do
  let x ← digitVal a
  let y ← digitVal b
  pure (10 * x + y)

def num3 (a b c : Char) : Option Nat := do
  let x ← digitVal a
  let y ← digitVal b
  let z ← digitVal c
  pure (100 * x + 10 * y + z)

def num4 (a b c d : Char) : Option Nat := do
  let x ← digitVal a
  let y ← digitVal b
  let z ← digitVal c
  let w ← digitVal d
  pure (1000 * x + 100 * y + 10 * z + w)

def isLeapYear (y : Nat) : Bool :=
  y % 4 = 0 && (y % 100 != 0 || y % 400 = 0)

def daysInMonth (y m : Nat) : Nat :=
  if m = 2 then (if isLeapYear y then 29 else 28)
  else if m = 4 ∨ m = 6 ∨ m = 9 ∨ m = 11 then 30
  else 31

/-- Days from the Unix epoch (1970-01-01) to the civil date `y-m-d`,
computed with the standard civil-from-days algorithm (as Go's
`time` package does internally via its absolute-day representation). -/
def civilDays (y m d : Nat) : Int :=
  let y' : Int := if m ≤ 2 then (y : Int) - 1 else (y : Int)
  let era : Int := (if 0 ≤ y' then y' else y' - 399) / 400
  let yoe : Int := y' - era * 400
  let mp : Int := if 2 < m then (m : Int) - 3 else (m : Int) + 9
  let doy : Int := (153 * mp + 2) / 5 + (d : Int) - 1
  let doe : Int := yoe * 365 + yoe / 4 - yoe / 100 + doy
  era * 146097 + doe - 719468

def msPerDay : Int := 86400000

/-- Model of `time.Parse("2006-01-02", s)`: milliseconds since the Unix epoch
at midnight UTC of the parsed day, or `none` on any parse failure. -/
def parseDate (s : String) : Option Int :=
  match s.data with
  | [a, b, c, d, h1, e, f, h2, g, i] => do
    guard (h1 = '-' ∧ h2 = '-')
    let y ← num4 a b c d
    let mo ← num2 e f
    let da ← num2 g i
    guard (1 ≤ mo ∧ mo ≤ 12)
    guard (1 ≤ da ∧ da ≤ daysInMonth y mo)
    pure (civilDays y mo da * msPerDay)
  | _ => none

/-- Model of `time.Parse("2006-01-02T15:04:05.000Z", s)`: milliseconds since
the Unix epoch, or `none` on any parse failure. -/
def parseTimestamp (s : String) : Option Int :=
  match s.data with
  | [a, b, c, d, h1, e, f, h2, g, i, tc, j, k, c1, l, m, c2, n, o, dot, p, q, r, zc] => do
    guard (h1 = '-' ∧ h2 = '-' ∧ tc = 'T' ∧ c1 = ':' ∧ c2 = ':' ∧ dot = '.' ∧ zc = 'Z')
    let y ← num4 a b c d
    let mo ← num2 e f
    let da ← num2 g i
    let hh ← num2 j k
    let mi ← num2 l m
    let ss ← num2 n o
    let ms ← num3 p q r
    guard (1 ≤ mo ∧ mo ≤ 12)
    guard (1 ≤ da ∧ da ≤ daysInMonth y mo)
    guard (hh ≤ 23 ∧ mi ≤ 59 ∧ ss ≤ 59)
    pure (civilDays y mo da * msPerDay + ((hh * 3600 + mi * 60 + ss) * 1000 + ms : Nat))
  | _ => none

/-! ## Merger: ride timestamp extraction (`merge_by_date.go` lines 112-140)

The triple loop scans tracks, then segments, then points in document order.
A point with an empty `Time` is passed over; a point whose non-empty `Time`
fails to parse is logged and passed over (`continue`); the first successful
parse is taken and all loops break. -/

def findTimeInPoints : List TrackPoint → Option Int
  | [] => none
  | p :: ps =>
    if p.time ≠ "" then
      match parseTimestamp p.time with
      | some t => some t
      | none => findTimeInPoints ps
    else findTimeInPoints ps

def findTimeInSegments : List TrackSegment → Option Int
  | [] => none
  | s :: ss =>
    match findTimeInPoints s.points with
    | some t => some t
    | none => findTimeInSegments ss

def findTimeInTracks : List Track → Option Int
  | [] => none
  | t :: ts =>
    match findTimeInSegments t.segments with
    | some v => some v
    | none => findTimeInTracks ts

def extractRideTime (g : GPX) : Option Int :=
  findTimeInTracks g.tracks

/-- All points of a document flattened in document order
(tracks, then segments, then points). -/
def flatPoints (g : GPX) : List TrackPoint :=
  g.tracks.flatMap (fun t => t.segments.flatMap (fun s => s.points))

/-- The per-point timestamp candidate used by the extraction loop: `none` for
an empty or unparseable `Time`, `some t` for a successful parse. -/
def timeOf (p : TrackPoint) : Option Int :=
  if p.time ≠ "" then parseTimestamp p.time else none

/-! ## Merger: per-file filtering (`merge_by_date.go` lines 99-153) -/

/-- Models `filepath.Base (filepath.Dir p)` (line 144) for the relative
slash-separated paths produced by `filepath.Walk` over the tours directory. -/
def dirBase (p : String) : String :=
  match (p.splitOn "/").reverse with
  | _ :: parent :: _ => parent
  | _ => "."

/-- One iteration of the file loop, after XML parsing: derive the ride time,
skip the file when none is found, and keep the ride exactly when
`rideTime.After(startDate) && rideTime.Before(endDate)` (lines 137-152;
`endDate` already has the extra day added by line 79). -/
def processFile (startMs endMs : Int) (fp : String) (g : GPX) : Option RideInfo :=
  match extractRideTime g with
  | none => none
  | some t =>
    if startMs < t ∧ t < endMs then
      some { filePath := fp, name := dirBase fp, date := t, gpx := g }
    else none

def collectRides (startMs endMs : Int) (files : List (String × GPX)) : List RideInfo :=
  files.filterMap (fun fg => processFile startMs endMs fg.1 fg.2)

/-- The retained ride list for parsed start/end dates `sd`/`ed` (ms at
midnight UTC): line 79 adds 24h to the end date before the range check. -/
def mergeRides (sd ed : Int) (files : List (String × GPX)) : List RideInfo :=
  collectRides sd (ed + msPerDay) files

/-! ## Merger: sorting (`merge_by_date.go` lines 161-163)

`sort.Slice(rides, less = Date.Before)` guarantees a result sorted by the
non-strict date order; the unstable tie order is implementation defined, so
any date-sorted permutation is a faithful model.  Insertion sort with the
same strict `<` comparator is used. -/

def insertRide (r : RideInfo) : List RideInfo → List RideInfo
  | [] => [r]
  | x :: xs => if r.date < x.date then r :: x :: xs else x :: insertRide r xs

def sortRides : List RideInfo → List RideInfo
  | [] => []
  | r :: rs => insertRide r (sortRides rs)

def dateLE (a b : RideInfo) : Prop := a.date ≤ b.date

/-! ## Merger: connected mode (`merge_by_date.go` lines 177-224) -/

/-- The synthesized connector point (lines 206-211): midpoint latitude and
longitude, literal name and description, zero values elsewhere. -/
def gapPoint (lastP firstP : TrackPoint) : TrackPoint :=
  { lat := (lastP.lat + firstP.lat) / 2
    lon := (lastP.lon + firstP.lon) / 2
    ele := 0
    time := ""
    name := "Gap Connection"
    desc := "Connected gap between rides" }

/-- All points of one ride appended in document order (lines 217-221). -/
def ridePoints (g : GPX) : List TrackPoint :=
  flatPoints g

/-- Inner loop of the first-point search (lines 193-198): the first point of
the first non-empty segment of a track, or `fp` unchanged when the track has
no non-empty segment. -/
def firstOfSegments (segs : List TrackSegment) (fp : TrackPoint) : TrackPoint :=
  match segs with
  | [] => fp
  | s :: ss => if s.points ≠ [] then s.points.headD fp else firstOfSegments ss fp

/-- Track loop of the first-point search (lines 192-202): update the candidate
from each track in turn and stop at the first candidate with non-zero
latitude. -/
def firstPointAux : List Track → TrackPoint → TrackPoint
  | [], fp => fp
  | t :: ts, fp =>
    let fp' := firstOfSegments t.segments fp
    if fp'.lat ≠ 0 then fp' else firstPointAux ts fp'

/-- Iterations `i > 0` of the connected-mode ride loop (lines 181-222):
`acc` is the accumulated `mergedSegment.Points`.  `lastPoint` is the last
accumulated point (zero value when none, line 185-188), `firstPoint` is found
by the track scan starting from the zero value (lines 191-202), the connector
is appended only when both latitudes are non-zero (line 205), and then the
ride's own points are appended. -/
def connectedGo : List RideInfo → List TrackPoint → List TrackPoint
  | [], acc => acc
  | r :: rs, acc =>
    let lastPoint := acc.getLastD zeroPoint
    let firstPoint := firstPointAux r.gpx.tracks zeroPoint
    let acc1 :=
      if lastPoint.lat ≠ 0 ∧ firstPoint.lat ≠ 0 then acc ++ [gapPoint lastPoint firstPoint]
      else acc
    connectedGo rs (acc1 ++ ridePoints r.gpx)

/-- The single connected-mode segment: iteration `i = 0` appends the first
ride's points with no connector, the rest run `connectedGo`. -/
def connectedPoints : List RideInfo → List TrackPoint
  | [] => []
  | r :: rs => connectedGo rs (ridePoints r.gpx)

/-! ## Merger: disconnected mode (`merge_by_date.go` lines 225-235) -/

def disconnectedSegments (rides : List RideInfo) : List TrackSegment :=
  rides.foldl
    (fun acc r => r.gpx.tracks.foldl (fun acc2 t => acc2 ++ t.segments) acc) []

/-! ## Merger: output document and outcome (`merge_by_date.go` lines 155-256) -/

def buildMerged (connect : Bool) (startStr endStr : String) (rides : List RideInfo) : GPX :=
  { version := "1.1"
    creator := "Date Range GPX Merger"
    xmlns := "http://www.topografix.com/GPX/1/1"
    tracks := [{ name := "Merged rides " ++ startStr ++ " to " ++ endStr
                 segments :=
                   if connect then [{ points := connectedPoints rides }]
                   else disconnectedSegments rides }] }

/-- Observable outcome of one merger run (after CLI argument splitting):
`fatalBadDate` models `log.Fatalf` on an unparseable date (exit status 1);
`noRides` models the informational message printed at lines 155-158 followed
by a plain `return` from `main` (exit status 0, nothing written);
`merged` models serializing and writing the merged document (lines 239-250). -/
inductive MergeOutcome where
  | fatalBadDate : MergeOutcome
  | noRides : String → MergeOutcome
  | merged : GPX → MergeOutcome
deriving DecidableEq, Repr

def mergeByDate (connect : Bool) (startStr endStr : String)
    (files : List (String × GPX)) : MergeOutcome :=
  match parseDate startStr with
  | none => .fatalBadDate
  | some sd =>
    match parseDate endStr with
    | none => .fatalBadDate
    | some ed =>
      let rides := mergeRides sd ed files
      if rides = [] then
        .noRides ("No rides found between " ++ startStr ++ " and " ++ endStr)
      else .merged (buildMerged connect startStr endStr (sortRides rides))

/-- Process exit status of each outcome: `log.Fatalf` exits 1, the other two
paths fall off `main` normally. -/
def exitCode : MergeOutcome → Nat
  | .fatalBadDate => 1
  | .noRides _ => 0
  | .merged _ => 0

/-- The document written to the output path, when the run reaches the
serialization and `os.WriteFile` step at lines 239-250; `none` means no
write is performed at all. -/
def writesOutput : MergeOutcome → Option GPX
  | .merged g => some g
  | _ => none

/-! ## Converter data model (`gpx2kml.go`)

KML output structures.  `fmt.Sprintf("%f,%f[,%f]")` coordinate strings are
kept structured: `Coord.noEle` is the two-component form and `Coord.withEle`
the three-component form, so presence of the elevation component is explicit
while the purely presentational decimal formatting is abstracted away. -/

inductive Coord where
  | noEle (lon lat : ℚ) : Coord
  | withEle (lon lat ele : ℚ) : Coord
deriving DecidableEq, Repr

/-- Whether a coordinate triple carries the elevation component. -/
def Coord.hasEle : Coord → Bool
  | .noEle _ _ => false
  | .withEle _ _ _ => true

structure LineGeom where
  tessellate : Int
  coords : List Coord
deriving DecidableEq, Repr

structure KmlPlacemark where
  name : String
  desc : String
  styleURL : String
  line : Option LineGeom
  point : Option Coord
deriving DecidableEq, Repr

def emptyPlacemark : KmlPlacemark :=
  { name := "", desc := "", styleURL := "", line := none, point := none }

structure KmlStyle where
  id : String
  color : String
  width : ℚ
deriving DecidableEq, Repr

structure KmlDocument where
  name : String
  styles : List KmlStyle
  placemarks : List KmlPlacemark
deriving DecidableEq, Repr

/-! ## Converter: document name (`gpx2kml.go` lines 173-179) -/

/-- Model of Go `strings.HasSuffix`: length check plus equality of the
trailing slice. -/
def hasSuffix (s suffix : List Char) : Bool :=
  decide (suffix.length ≤ s.length) && decide (s.drop (s.length - suffix.length) = suffix)

/-- Model of Go `strings.TrimSuffix`: drop the suffix when present, otherwise
return the string unchanged. -/
def trimSuffix (s suffix : String) : String :=
  if hasSuffix s.data suffix.data then
    String.mk (s.data.take (s.data.length - suffix.data.length))
  else s

/-! ## Converter: per-point loop (`gpx2kml.go` lines 211-235)

For each point of a segment: a point literally named "Gap Connection" marks
the segment as a gap segment and, when waypoint rendering is on, emits a
point placemark whose coordinate triple always includes the elevation; every
point then contributes one line coordinate whose elevation component is
included exactly when the elevation differs from 0. -/

def pointCoord (p : TrackPoint) : Coord :=
  if p.ele ≠ 0 then .withEle p.lon p.lat p.ele else .noEle p.lon p.lat

def gapWaypoint (p : TrackPoint) : KmlPlacemark :=
  { name := "Gap Connection"
    desc := p.desc
    styleURL := ""
    line := none
    point := some (Coord.withEle p.lon p.lat p.ele) }

/-- Returns the waypoint placemarks emitted during the loop (in point order),
the coordinate list, and the marker-derived gap flag. -/
def processPoints (wp : Bool) : List TrackPoint → List KmlPlacemark × List Coord × Bool
  | [] => ([], [], false)
  | p :: ps =>
    let rest := processPoints wp ps
    ((if p.name = "Gap Connection" ∧ wp then [gapWaypoint p] else []) ++ rest.1,
     pointCoord p :: rest.2.1,
     (decide (p.name = "Gap Connection") || rest.2.2))

/-! ## Converter: segment and track loops (`gpx2kml.go` lines 200-271) -/

structure ConvState where
  trackNum : Nat
  placemarks : List KmlPlacemark
deriving DecidableEq, Repr

/-- One iteration of the segment loop: skip empty segments; otherwise emit the
waypoint placemarks gathered by the point loop followed by the segment's line
placemark.  The unnamed-track counter `trackNum` is incremented inside this
per-segment body (lines 238-242), the disambiguating segment suffix is added
when the track has more than one segment (lines 243-245), and the structural
gap heuristic fires for segments of at most two coordinates that are neither
first nor last in their track (lines 247-251). -/
def segmentStep (wp : Bool) (trackName : String) (numSegs : Nat)
    (st : ConvState) (idxSeg : Nat × TrackSegment) : ConvState :=
  let segIdx := idxSeg.1
  let seg := idxSeg.2
  if seg.points = [] then st
  else
    let res := processPoints wp seg.points
    let tn1 := if trackName = "" then st.trackNum + 1 else st.trackNum
    let baseName := if trackName = "" then "Track " ++ toString (st.trackNum + 1) else trackName
    let segName :=
      if 1 < numSegs then baseName ++ " - Segment " ++ toString (segIdx + 1) else baseName
    let isGap :=
      res.2.2 || decide (res.2.1.length ≤ 2 ∧ 0 < segIdx ∧ segIdx < numSegs - 1)
    let pm : KmlPlacemark :=
      { name := segName
        desc := if isGap then "Gap connection" else ""
        styleURL := if isGap then "#gap" else "#normal"
        line := some { tessellate := 1, coords := res.2.1 }
        point := none }
    { trackNum := tn1, placemarks := st.placemarks ++ res.1 ++ [pm] }

/-- The segment loop of one track, carrying the 0-based segment index. -/
def segsGo (wp : Bool) (trackName : String) (numSegs : Nat) :
    Nat → List TrackSegment → ConvState → ConvState
  | _, [], st => st
  | i, s :: ss, st => segsGo wp trackName numSegs (i + 1) ss (segmentStep wp trackName numSegs st (i, s))

def trackStep (wp : Bool) (st : ConvState) (t : Track) : ConvState :=
  segsGo wp t.name t.segments.length 0 t.segments st

def convertTracks (wp : Bool) (tracks : List Track) : List KmlPlacemark :=
  (tracks.foldl (fun st t => trackStep wp st t) { trackNum := 0, placemarks := [] }).placemarks

/-- The whole conversion (`gpx2kml.go` lines 174-271): document name from the
input path with a trailing ".gpx" trimmed, the two fixed styles (gap width
scaled by 0.75), and the placemarks of all tracks. -/
def gpx2kml (lineColor gapColor : String) (lineWidth : ℚ) (wp : Bool)
    (inputFile : String) (g : GPX) : KmlDocument :=
  { name := trimSuffix inputFile ".gpx"
    styles := [{ id := "normal", color := lineColor, width := lineWidth },
               { id := "gap", color := gapColor, width := lineWidth * 0.75 }]
    placemarks := convertTracks wp g.tracks }

/-! ## Spec-side comparison definitions

These follow the specification's wording, for refinement comparisons with the
code-side definitions above. -/

/-- Spec-side tail of the connected merge: given the previous ride's last
point, each further ride contributes one connector (midpoint of `prev` and
the ride's first point) followed by the ride's own points. -/
def interleaveFrom (prev : TrackPoint) : List RideInfo → List TrackPoint
  | [] => []
  | r :: rs =>
    gapPoint prev ((ridePoints r.gpx).headD zeroPoint) ::
      (ridePoints r.gpx ++ interleaveFrom ((ridePoints r.gpx).getLastD zeroPoint) rs)

/-- Spec-side connected merge: the rides' point lists in order with exactly
one midpoint connector between each pair of consecutive rides. -/
def interleaveMid : List RideInfo → List TrackPoint
  | [] => []
  | r :: rs => ridePoints r.gpx ++ interleaveFrom ((ridePoints r.gpx).getLastD zeroPoint) rs

/-! ## List helper lemmas -/

theorem getLastD_concat {α : Type _} (l : List α) (a d : α) : (l ++ [a]).getLastD d = a := by
  rw [List.getLastD_eq_getLast?, List.getLast?_concat]
  rfl

theorem getLastD_append_right {α : Type _} (l1 l2 : List α) (d : α) (h : l2 ≠ []) :
    (l1 ++ l2).getLastD d = l2.getLastD d := by
  rw [List.getLastD_eq_getLast?, List.getLastD_eq_getLast?, List.getLast?_append]
  cases h2 : l2.getLast? with
  | none => exact absurd (List.getLast?_eq_none_iff.mp h2) h
  | some x => rfl

theorem headD_append_left {α : Type _} (l1 l2 : List α) (d : α) (h : l1 ≠ []) :
    (l1 ++ l2).headD d = l1.headD d := by
  rw [List.headD_eq_head?, List.headD_eq_head?, List.head?_append]
  cases h1 : l1.head? with
  | none => exact absurd (List.head?_eq_none_iff.mp h1) h
  | some x => rfl

/-! ## Sorting lemmas for the merger's ride sort -/

theorem insertRide_perm (r : RideInfo) (l : List RideInfo) :
    (insertRide r l).Perm (r :: l) := by
  induction l with
  | nil => exact List.Perm.refl _
  | cons x xs ih =>
    by_cases h : r.date < x.date
    · simp [insertRide, h]
    · simp only [insertRide, h, if_false]
      exact ((ih.cons x).trans (List.Perm.swap r x xs))

theorem mem_insertRide {y r : RideInfo} {l : List RideInfo} (h : y ∈ insertRide r l) :
    y = r ∨ y ∈ l := by
  have := (insertRide_perm r l).mem_iff.mp h
  simpa using this

theorem insertRide_sorted (r : RideInfo) (l : List RideInfo) (h : List.Sorted dateLE l) :
    List.Sorted dateLE (insertRide r l) := by
  induction l with
  | nil => simp [insertRide]
  | cons x xs ih =>
    rw [List.sorted_cons] at h
    by_cases hlt : r.date < x.date
    · simp only [insertRide, hlt, if_true]
      rw [List.sorted_cons]
      refine ⟨?_, List.sorted_cons.mpr h⟩
      intro b hb
      rcases List.mem_cons.mp hb with rfl | hb2
      · exact le_of_lt hlt
      · exact le_trans (le_of_lt hlt) (h.1 b hb2)
    · simp only [insertRide, hlt, if_false]
      rw [List.sorted_cons]
      refine ⟨?_, ih h.2⟩
      intro b hb
      rcases mem_insertRide hb with rfl | hb
      · exact le_of_not_lt hlt
      · exact h.1 b hb

theorem sortRides_perm (l : List RideInfo) : (sortRides l).Perm l := by
  induction l with
  | nil => exact List.Perm.refl _
  | cons r rs ih => exact (insertRide_perm r (sortRides rs)).trans (ih.cons r)

theorem sortRides_sorted (l : List RideInfo) : List.Sorted dateLE (sortRides l) := by
  induction l with
  | nil => simp [sortRides]
  | cons r rs ih => exact insertRide_sorted r (sortRides rs) ih

/-! ## TrimSuffix lemmas -/

theorem trimSuffix_mk_append (l m : List Char) :
    trimSuffix (String.mk (l ++ m)) (String.mk m) = String.mk l := by
  have hsub : (l ++ m).length - m.length = l.length := by
    rw [List.length_append]
    omega
  have hcond : hasSuffix (String.mk (l ++ m)).data (String.mk m).data = true := by
    show hasSuffix (l ++ m) m = true
    simp only [hasSuffix, Bool.and_eq_true, decide_eq_true_eq]
    constructor
    · rw [List.length_append]
      omega
    · rw [hsub, List.drop_left]
  simp only [trimSuffix, hcond, if_true]
  show String.mk ((l ++ m).take ((l ++ m).length - m.length)) = String.mk l
  rw [hsub, List.take_left]

theorem trimSuffix_append (q : String) : trimSuffix (q ++ ".gpx") ".gpx" = q := by
  obtain ⟨l⟩ := q
  exact trimSuffix_mk_append l (".gpx").data

theorem trimSuffix_no_suffix (p : String) (h : hasSuffix p.data (".gpx").data = false) :
    trimSuffix p ".gpx" = p := by
  simp [trimSuffix, h]

/-! ## Claim C10: converter output document name -/

/-- Claim C10: for every invocation the converter sets the output KML
document's name to the input file path with a trailing ".gpx" suffix removed
(the full path as given, not just the base name); a path not ending in ".gpx"
is used unchanged. -/
theorem converter_doc_name :
    (∀ (lineColor gapColor : String) (w : ℚ) (wp : Bool) (p : String) (g : GPX),
      (gpx2kml lineColor gapColor w wp p g).name = trimSuffix p ".gpx")
    ∧ (∀ q : String, trimSuffix (q ++ ".gpx") ".gpx" = q)
    ∧ (∀ p : String, hasSuffix p.data (".gpx").data = false → trimSuffix p ".gpx" = p) := by
  refine ⟨fun _ _ _ _ _ _ => rfl, trimSuffix_append, trimSuffix_no_suffix⟩

/-- Witness for C10 at concrete paths: a full path keeps its directory part,
and a path without the ".gpx" suffix is unchanged. -/
theorem converter_doc_name_witness :
    trimSuffix ("tours/123 Morning/tour" ++ ".gpx") ".gpx" = "tours/123 Morning/tour"
    ∧ trimSuffix "tours/readme.txt" ".gpx" = "tours/readme.txt" :=
  ⟨converter_doc_name.2.1 "tours/123 Morning/tour",
   converter_doc_name.2.2 "tours/readme.txt" (by decide)⟩

/-! ## Claim C8: zero rides is a benign, successful outcome -/

/-- Claim C8: when zero rides fall within the requested date range, the merger
prints the informational no-rides message and terminates with a successful
exit status; this case is not treated as an error. -/
theorem merger_no_rides_success :
    ∀ (connect : Bool) (s e : String) (files : List (String × GPX)) (sd ed : Int),
      parseDate s = some sd → parseDate e = some ed →
      mergeRides sd ed files = [] →
      mergeByDate connect s e files =
        .noRides ("No rides found between " ++ s ++ " and " ++ e)
      ∧ exitCode (mergeByDate connect s e files) = 0 := by
  intro connect s e files sd ed hs he hrides
  have hout : mergeByDate connect s e files =
      .noRides ("No rides found between " ++ s ++ " and " ++ e) := by
    simp [mergeByDate, hs, he, hrides]
  exact ⟨hout, by rw [hout]; rfl⟩

/-- Witness for C8: an empty file set with a valid date range. -/
theorem merger_no_rides_success_witness :
    mergeByDate false "2025-08-15" "2025-08-25" [] =
      .noRides ("No rides found between " ++ "2025-08-15" ++ " and " ++ "2025-08-25")
    ∧ exitCode (mergeByDate false "2025-08-15" "2025-08-25" []) = 0 :=
  merger_no_rides_success false "2025-08-15" "2025-08-25" [] 1755216000000 1756080000000
    (by decide) (by decide) rfl

/-! ## Claim C9: zero rides writes no output -/

/-- Claim C9: when zero rides fall within the requested date range, the merger
returns before any serialization or write step: no write action is performed
(so no output file is created and a pre-existing file at the output path is
left unchanged). -/
theorem merger_no_rides_no_write :
    ∀ (connect : Bool) (s e : String) (files : List (String × GPX)) (sd ed : Int),
      parseDate s = some sd → parseDate e = some ed →
      mergeRides sd ed files = [] →
      writesOutput (mergeByDate connect s e files) = none := by
  intro connect s e files sd ed hs he hrides
  simp [mergeByDate, hs, he, hrides, writesOutput]

/-- Witness for C9: an empty file set with a valid date range. -/
theorem merger_no_rides_no_write_witness :
    writesOutput (mergeByDate true "2025-08-15" "2025-08-25" []) = none :=
  merger_no_rides_no_write true "2025-08-15" "2025-08-25" [] 1755216000000 1756080000000
    (by decide) (by decide) rfl

/-! ## Claim C2: the merger's date-range filter -/

theorem processFile_eq_some {startMs endMs : Int} {fp : String} {g : GPX} {r : RideInfo}
    (h : processFile startMs endMs fp g = some r) :
    extractRideTime g = some r.date ∧ startMs < r.date ∧ r.date < endMs ∧
      r.filePath = fp ∧ r.gpx = g := by
  cases he : extractRideTime g with
  | none => simp [processFile, he] at h
  | some t =>
    simp only [processFile, he] at h
    by_cases hr : startMs < t ∧ t < endMs
    · rw [if_pos hr] at h
      cases h
      exact ⟨rfl, hr.1, hr.2, rfl, rfl⟩
    · rw [if_neg hr] at h
      exact absurd h (by simp)

theorem processFile_some_of_range {startMs endMs : Int} {fp : String} {g : GPX} {t : Int}
    (he : extractRideTime g = some t) (hr : startMs < t ∧ t < endMs) :
    processFile startMs endMs fp g =
      some { filePath := fp, name := dirBase fp, date := t, gpx := g } := by
  simp only [processFile, he]
  rw [if_pos hr]

theorem mem_mergeRides {sd ed : Int} {files : List (String × GPX)} {r : RideInfo} :
    r ∈ mergeRides sd ed files ↔
      ∃ fg ∈ files, processFile sd (ed + msPerDay) fg.1 fg.2 = some r := by
  unfold mergeRides collectRides
  exact List.mem_filterMap

/-- Claim C2: the merger retains exactly those rides whose derived first
timestamp is strictly after midnight of the start day and strictly before
midnight of the day after the end day (`ed + msPerDay` models that midnight);
in particular a ride at exactly that instant is excluded and one at 23:59:59
on the end date (`ed + msPerDay - 1000`) is included. -/
theorem merger_date_filter :
    ∀ (sd ed : Int) (files : List (String × GPX)) (fp : String) (g : GPX) (t : Int),
      (fp, g) ∈ files → extractRideTime g = some t →
      ((∃ r ∈ mergeRides sd ed files, r.filePath = fp ∧ r.gpx = g ∧ r.date = t)
          ↔ (sd < t ∧ t < ed + msPerDay))
      ∧ (t = ed + msPerDay → ¬ ∃ r ∈ mergeRides sd ed files, r.date = t)
      ∧ (sd ≤ ed → t = ed + msPerDay - 1000 →
          ∃ r ∈ mergeRides sd ed files, r.filePath = fp ∧ r.gpx = g ∧ r.date = t) := by
  intro sd ed files fp g t hmem hex
  have hiff : (∃ r ∈ mergeRides sd ed files, r.filePath = fp ∧ r.gpx = g ∧ r.date = t)
      ↔ (sd < t ∧ t < ed + msPerDay) := by
    constructor
    · rintro ⟨r, hr, hfp, hg, hd⟩
      obtain ⟨he, h1, h2, _, _⟩ := processFile_eq_some (mem_mergeRides.mp hr).choose_spec.2
      rw [hd] at h1 h2
      exact ⟨h1, h2⟩
    · intro hr
      refine ⟨{ filePath := fp, name := dirBase fp, date := t, gpx := g }, ?_, rfl, rfl, rfl⟩
      exact mem_mergeRides.mpr ⟨(fp, g), hmem, processFile_some_of_range hex hr⟩
  refine ⟨hiff, ?_, ?_⟩
  · rintro ht ⟨r, hr, hd⟩
    obtain ⟨fg, _, hpf⟩ := mem_mergeRides.mp hr
    obtain ⟨_, _, h2, _, _⟩ := processFile_eq_some hpf
    rw [hd, ht] at h2
    exact lt_irrefl _ h2
  · intro hle ht
    apply hiff.mpr
    have : msPerDay = 86400000 := rfl
    omega

def c2Point : TrackPoint :=
  { lat := 1, lon := 1, ele := 0, time := "2025-08-16T10:00:00.000Z", name := "", desc := "" }

def c2Gpx : GPX :=
  { version := "1.1", creator := "komoot", xmlns := "x",
    tracks := [{ name := "t", segments := [{ points := [c2Point] }] }] }

/-- Witness for C2: a ride timestamped 2025-08-16T10:00:00Z is retained for
the range 2025-08-15 .. 2025-08-25 (date values as parsed by `parseDate`). -/
theorem merger_date_filter_witness :
    ∃ r ∈ mergeRides 1755216000000 1756080000000 [("tours/100/tour.gpx", c2Gpx)],
      r.filePath = "tours/100/tour.gpx" ∧ r.gpx = c2Gpx ∧ r.date = 1755338400000 :=
  ((merger_date_filter 1755216000000 1756080000000 [("tours/100/tour.gpx", c2Gpx)]
      "tours/100/tour.gpx" c2Gpx 1755338400000 (by decide) (by decide)).1).mpr (by decide)

/-! ## Converter point-loop lemmas -/

theorem processPoints_coords (wp : Bool) (pts : List TrackPoint) :
    (processPoints wp pts).2.1 = pts.map pointCoord := by
  induction pts with
  | nil => rfl
  | cons p ps ih => simp [processPoints, ih]

theorem processPoints_flag (wp : Bool) (pts : List TrackPoint) :
    (processPoints wp pts).2.2 = pts.any (fun p => decide (p.name = "Gap Connection")) := by
  induction pts with
  | nil => rfl
  | cons p ps ih => simp [processPoints, ih]

theorem processPoints_waypoints (wp : Bool) (pts : List TrackPoint) :
    (processPoints wp pts).1 =
      if wp then (pts.filter (fun p => decide (p.name = "Gap Connection"))).map gapWaypoint
      else [] := by
  induction pts with
  | nil => cases wp <;> rfl
  | cons p ps ih =>
    cases wp with
    | false =>
      simp only [processPoints, ih, if_false]
      simp
    | true =>
      by_cases hn : p.name = "Gap Connection"
      · simp [processPoints, ih, hn]
      · simp [processPoints, ih, hn]

/-! ## Claim C7: elevation components in coordinates -/

/-- Claim C7: each line coordinate carries the elevation component exactly
when the point's elevation is not 0, while every gap-connection point
placemark (emitted once per point named "Gap Connection", only when the
waypoint flag is on) always carries the elevation component, zero or not. -/
theorem converter_elevation_components :
    (∀ (wp : Bool) (pts : List TrackPoint), (processPoints wp pts).2.1 = pts.map pointCoord)
    ∧ (∀ p : TrackPoint, (pointCoord p).hasEle = true ↔ p.ele ≠ 0)
    ∧ (∀ (wp : Bool) (pts : List TrackPoint),
        (processPoints wp pts).1 =
          if wp then (pts.filter (fun p => decide (p.name = "Gap Connection"))).map gapWaypoint
          else [])
    ∧ (∀ p : TrackPoint, (gapWaypoint p).point = some (Coord.withEle p.lon p.lat p.ele)
        ∧ (Coord.withEle p.lon p.lat p.ele).hasEle = true) := by
  refine ⟨processPoints_coords, ?_, processPoints_waypoints, fun p => ⟨rfl, rfl⟩⟩
  intro p
  unfold pointCoord
  by_cases he : p.ele ≠ 0
  · rw [if_pos he]
    simpa [Coord.hasEle] using he
  · rw [if_neg he]
    simp only [Coord.hasEle]
    simpa using he

def c7PointZeroEle : TrackPoint :=
  { lat := 2, lon := 3, ele := 0, time := "", name := "Gap Connection", desc := "bridge" }

/-- Witness for C7: a gap point with elevation exactly 0 still gets a
three-component point coordinate, while its line coordinate omits the
elevation. -/
theorem converter_elevation_components_witness :
    (processPoints true [c7PointZeroEle]).2.1 = [c7PointZeroEle].map pointCoord
    ∧ ((pointCoord { c7PointZeroEle with ele := 5 }).hasEle = true)
    ∧ (processPoints true [c7PointZeroEle]).1 =
        [c7PointZeroEle].map gapWaypoint
    ∧ (gapWaypoint c7PointZeroEle).point = some (Coord.withEle 3 2 0) :=
  ⟨converter_elevation_components.1 true [c7PointZeroEle],
   (converter_elevation_components.2.1 _).mpr (by decide),
   by
     have h := converter_elevation_components.2.2.1 true [c7PointZeroEle]
     rw [h]
     decide,
   (converter_elevation_components.2.2.2 c7PointZeroEle).1⟩

/-! ## Claim C3: gap-segment classification -/

/-- Claim C3: a non-empty segment is classified as a gap segment iff some
point carries the literal name "Gap Connection" or the segment has at most
two points and is neither the first nor the last segment of its track; a gap
segment's line placemark references the "gap" style with the fixed
description, any other references the "normal" style with no description. -/
theorem converter_gap_classification :
    ∀ (wp : Bool) (tn : String) (ns i : Nat) (st : ConvState) (seg : TrackSegment),
      seg.points ≠ [] →
      (((((segmentStep wp tn ns st (i, seg)).placemarks).getLastD emptyPlacemark).styleURL = "#gap"
          ∧ (((segmentStep wp tn ns st (i, seg)).placemarks).getLastD emptyPlacemark).desc
              = "Gap connection")
        ↔ ((∃ p ∈ seg.points, p.name = "Gap Connection")
           ∨ (seg.points.length ≤ 2 ∧ 0 < i ∧ i < ns - 1)))
      ∧ ((((segmentStep wp tn ns st (i, seg)).placemarks).getLastD emptyPlacemark).styleURL = "#gap"
         ∨ ((((segmentStep wp tn ns st (i, seg)).placemarks).getLastD emptyPlacemark).styleURL
              = "#normal"
            ∧ (((segmentStep wp tn ns st (i, seg)).placemarks).getLastD emptyPlacemark).desc
              = "")) := by
  intro wp tn ns i st seg h
  have hunfold : (segmentStep wp tn ns st (i, seg)).placemarks =
      (st.placemarks ++ (processPoints wp seg.points).1) ++
        [{ name := if 1 < ns then
              (if tn = "" then "Track " ++ toString (st.trackNum + 1) else tn)
                ++ " - Segment " ++ toString (i + 1)
            else (if tn = "" then "Track " ++ toString (st.trackNum + 1) else tn)
           desc := if ((processPoints wp seg.points).2.2
                || decide ((processPoints wp seg.points).2.1.length ≤ 2 ∧ 0 < i ∧ i < ns - 1)) then
              "Gap connection" else ""
           styleURL := if ((processPoints wp seg.points).2.2
                || decide ((processPoints wp seg.points).2.1.length ≤ 2 ∧ 0 < i ∧ i < ns - 1)) then
              "#gap" else "#normal"
           line := some { tessellate := 1, coords := (processPoints wp seg.points).2.1 }
           point := none }] := by
    simp only [segmentStep, if_neg h]
  have hstyle : (((segmentStep wp tn ns st (i, seg)).placemarks).getLastD emptyPlacemark).styleURL
      = (if ((processPoints wp seg.points).2.2
            || decide ((processPoints wp seg.points).2.1.length ≤ 2 ∧ 0 < i ∧ i < ns - 1)) then
          "#gap" else "#normal") := by
    rw [hunfold, getLastD_concat]
  have hdesc : (((segmentStep wp tn ns st (i, seg)).placemarks).getLastD emptyPlacemark).desc
      = (if ((processPoints wp seg.points).2.2
            || decide ((processPoints wp seg.points).2.1.length ≤ 2 ∧ 0 < i ∧ i < ns - 1)) then
          "Gap connection" else "") := by
    rw [hunfold, getLastD_concat]
  rw [hstyle, hdesc]
  have hcount : (processPoints wp seg.points).2.1.length = seg.points.length := by
    rw [processPoints_coords, List.length_map]
  cases hb : ((processPoints wp seg.points).2.2
      || decide ((processPoints wp seg.points).2.1.length ≤ 2 ∧ 0 < i ∧ i < ns - 1)) with
  | true =>
    have htrue : (true = true) := rfl
    rw [if_pos htrue, if_pos htrue]
    refine ⟨⟨fun _ => ?_, fun _ => ⟨rfl, rfl⟩⟩, Or.inl rfl⟩
    rw [Bool.or_eq_true] at hb
    rcases hb with hflag | hstruct
    · rw [processPoints_flag] at hflag
      obtain ⟨p, hp, hname⟩ := List.any_eq_true.mp hflag
      exact Or.inl ⟨p, hp, of_decide_eq_true hname⟩
    · have := of_decide_eq_true hstruct
      rw [hcount] at this
      exact Or.inr this
  | false =>
    have hfalse : ¬ (false = true) := by decide
    rw [if_neg hfalse, if_neg hfalse]
    rw [Bool.or_eq_false_iff] at hb
    constructor
    · constructor
      · rintro ⟨hcontra, -⟩
        exact absurd hcontra (by decide)
      · rintro (⟨p, hp, hname⟩ | hstruct)
        · have : seg.points.any (fun p => decide (p.name = "Gap Connection")) = true :=
            List.any_eq_true.mpr ⟨p, hp, decide_eq_true hname⟩
          rw [← processPoints_flag wp] at this
          rw [hb.1] at this
          exact absurd this (by decide)
        · have := hb.2
          rw [decide_eq_false_iff_not] at this
          rw [hcount] at this
          exact absurd hstruct this
    · exact Or.inr ⟨rfl, rfl⟩

def c3GapSeg : TrackSegment :=
  { points := [{ lat := 1, lon := 1, ele := 0, time := "", name := "", desc := "" },
               { lat := 2, lon := 2, ele := 0, time := "", name := "Gap Connection", desc := "d" },
               { lat := 3, lon := 3, ele := 0, time := "", name := "", desc := "" }] }

/-- Witness for C3: a three-point first segment containing a point named
"Gap Connection" is styled as a gap segment. -/
theorem converter_gap_classification_witness :
    (List.getLastD
        ((segmentStep false "t" 1 { trackNum := 0, placemarks := [] } (0, c3GapSeg)).placemarks)
        emptyPlacemark).styleURL = "#gap"
    ∧ (List.getLastD
        ((segmentStep false "t" 1 { trackNum := 0, placemarks := [] } (0, c3GapSeg)).placemarks)
        emptyPlacemark).desc = "Gap connection" :=
  ((converter_gap_classification false "t" 1 0 { trackNum := 0, placemarks := [] } c3GapSeg
      (by decide)).1).mpr
    (Or.inl ⟨{ lat := 2, lon := 2, ele := 0, time := "", name := "Gap Connection", desc := "d" },
      by decide, rfl⟩)

/-! ## Claim C6: placemark naming and the unnamed-track counter -/

theorem segmentStep_empty (wp : Bool) (tn : String) (ns : Nat) (st : ConvState)
    (i : Nat) (seg : TrackSegment) (h : seg.points = []) :
    segmentStep wp tn ns st (i, seg) = st := by
  simp [segmentStep, h]

theorem segmentStep_trackNum (wp : Bool) (tn : String) (ns : Nat) (st : ConvState)
    (i : Nat) (seg : TrackSegment) (h : seg.points ≠ []) :
    (segmentStep wp tn ns st (i, seg)).trackNum =
      if tn = "" then st.trackNum + 1 else st.trackNum := by
  simp only [segmentStep, if_neg h]

theorem segmentStep_last_name (wp : Bool) (tn : String) (ns : Nat) (st : ConvState)
    (i : Nat) (seg : TrackSegment) (h : seg.points ≠ []) :
    (List.getLastD ((segmentStep wp tn ns st (i, seg)).placemarks) emptyPlacemark).name =
      (if 1 < ns then
        (if tn = "" then "Track " ++ toString (st.trackNum + 1) else tn)
          ++ " - Segment " ++ toString (i + 1)
       else (if tn = "" then "Track " ++ toString (st.trackNum + 1) else tn)) := by
  simp only [segmentStep, if_neg h]
  rw [getLastD_concat]

theorem segsGo_trackNum (wp : Bool) (tn : String) (ns : Nat) :
    ∀ (ss : List TrackSegment) (i : Nat) (st : ConvState),
      (segsGo wp tn ns i ss st).trackNum =
        st.trackNum + (if tn = "" then ss.countP (fun s => decide (s.points ≠ [])) else 0) := by
  intro ss
  induction ss with
  | nil =>
    intro i st
    simp only [segsGo, List.countP_nil]
    by_cases htn : tn = "" <;> simp [htn]
  | cons s ss ih =>
    intro i st
    simp only [segsGo]
    rw [ih]
    by_cases hpts : s.points = []
    · rw [segmentStep_empty wp tn ns st i s hpts]
      have hP : (decide (s.points ≠ []) : Bool) = false := by
        simp [hpts]
      rw [List.countP_cons, hP]
      simp
    · rw [segmentStep_trackNum wp tn ns st i s hpts]
      have hP : (decide (s.points ≠ []) : Bool) = true := by
        simp [hpts]
      rw [List.countP_cons, hP]
      by_cases htn : tn = ""
      · simp only [htn, if_true, if_pos]
        omega
      · simp [htn]

/-- Counterexample for C6 as stated: a single unnamed track with two
one-point segments.  The claim predicts names "Track 1 - Segment 1" and
"Track 1 - Segment 2" (one unnamed track encountered), but the counter
increments per emitted segment, giving "Track 2 - Segment 2" for the second
placemark. -/
def c6Seg : TrackSegment :=
  { points := [{ lat := 1, lon := 1, ele := 0, time := "", name := "", desc := "" }] }

def c6Track : Track := { name := "", segments := [c6Seg, c6Seg] }

theorem converter_track_naming_counterexample :
    (convertTracks false [c6Track]).map KmlPlacemark.name =
      ["Track 1 - Segment 1", "Track 2 - Segment 2"]
    ∧ (convertTracks false [c6Track]).map KmlPlacemark.name ≠
      ["Track 1 - Segment 1", "Track 1 - Segment 2"] := by
  decide

/-- Claim C6 as amended: a non-empty segment's line placemark is named with
the track name when non-empty, else "Track N" where N is one more than the
unnamed counter before this segment; "- Segment K" (K the 1-based segment
index) is appended when the track has more than one segment.  The unnamed
counter increments once per emitted (non-empty) segment of an unnamed track,
not once per track. -/
theorem converter_track_naming :
    (∀ (wp : Bool) (tn : String) (ns i : Nat) (st : ConvState) (seg : TrackSegment),
      seg.points ≠ [] →
      (List.getLastD ((segmentStep wp tn ns st (i, seg)).placemarks) emptyPlacemark).name =
        (if tn = "" then "Track " ++ toString (st.trackNum + 1) else tn) ++
          (if 1 < ns then " - Segment " ++ toString (i + 1) else "")
      ∧ (segmentStep wp tn ns st (i, seg)).trackNum
          = (if tn = "" then st.trackNum + 1 else st.trackNum))
    ∧ (∀ (wp : Bool) (st : ConvState) (t : Track),
        (trackStep wp st t).trackNum =
          st.trackNum + (if t.name = "" then
            t.segments.countP (fun s => decide (s.points ≠ [])) else 0)) := by
  constructor
  · intro wp tn ns i st seg h
    refine ⟨?_, segmentStep_trackNum wp tn ns st i seg h⟩
    rw [segmentStep_last_name wp tn ns st i seg h]
    by_cases hns : 1 < ns
    · rw [if_pos hns, if_pos hns, String.append_assoc]
    · rw [if_neg hns, if_neg hns, String.append_empty]
  · intro wp st t
    exact segsGo_trackNum wp t.name t.segments.length t.segments 0 st

/-- Witness for the amended C6: second non-empty segment of an unnamed track
with counter already at 1 is named "Track 2 - Segment 2", and a whole unnamed
track of two non-empty segments advances the counter by 2. -/
theorem converter_track_naming_witness :
    (List.getLastD ((segmentStep false "" 2 { trackNum := 1, placemarks := [] } (1, c6Seg)).placemarks)
        emptyPlacemark).name = "Track 2 - Segment 2"
    ∧ (trackStep false { trackNum := 0, placemarks := [] } c6Track).trackNum = 2 := by
  constructor
  · rw [(converter_track_naming.1 false "" 2 1 { trackNum := 1, placemarks := [] } c6Seg
      (by decide)).1]
    decide
  · rw [converter_track_naming.2 false { trackNum := 0, placemarks := [] } c6Track]
    decide

/-! ## Claim C5: disconnected-mode output document -/

theorem tracks_foldl_segments (tracks : List Track) :
    ∀ acc : List TrackSegment,
      tracks.foldl (fun acc2 t => acc2 ++ t.segments) acc =
        acc ++ tracks.flatMap Track.segments := by
  induction tracks with
  | nil => intro acc; simp
  | cons t ts ih =>
    intro acc
    simp only [List.foldl_cons, List.flatMap_cons, ih, List.append_assoc]

theorem disconnectedSegments_eq (rides : List RideInfo) :
    disconnectedSegments rides =
      rides.flatMap (fun r => r.gpx.tracks.flatMap Track.segments) := by
  suffices h : ∀ acc : List TrackSegment,
      rides.foldl (fun acc r => r.gpx.tracks.foldl (fun acc2 t => acc2 ++ t.segments) acc) acc =
        acc ++ rides.flatMap (fun r => r.gpx.tracks.flatMap Track.segments) by
    have := h []
    simpa [disconnectedSegments] using this
  induction rides with
  | nil => intro acc; simp
  | cons r rs ih =>
    intro acc
    simp only [List.foldl_cons]
    rw [tracks_foldl_segments, ih]
    simp only [List.flatMap_cons, List.append_assoc]

/-- Claim C5: with valid dates and a non-empty ride set, disconnected mode
produces exactly one track, named with the literal start and end date
strings, whose segment list is the concatenation of the segments of the
rides in ascending derived-timestamp order (original segment boundaries and
point contents preserved); the retained ride list is only reordered. -/
theorem merger_disconnected_output :
    ∀ (s e : String) (files : List (String × GPX)) (sd ed : Int),
      parseDate s = some sd → parseDate e = some ed →
      mergeRides sd ed files ≠ [] →
      mergeByDate false s e files =
        .merged { version := "1.1", creator := "Date Range GPX Merger",
                  xmlns := "http://www.topografix.com/GPX/1/1",
                  tracks := [{ name := "Merged rides " ++ s ++ " to " ++ e,
                               segments := (sortRides (mergeRides sd ed files)).flatMap
                                 (fun r => r.gpx.tracks.flatMap Track.segments) }] }
      ∧ List.Sorted dateLE (sortRides (mergeRides sd ed files))
      ∧ (sortRides (mergeRides sd ed files)).Perm (mergeRides sd ed files) := by
  intro s e files sd ed hs he hne
  refine ⟨?_, sortRides_sorted _, sortRides_perm _⟩
  have h1 : mergeByDate false s e files =
      .merged (buildMerged false s e (sortRides (mergeRides sd ed files))) := by
    simp [mergeByDate, hs, he, hne]
  rw [h1]
  have h2 : disconnectedSegments (sortRides (mergeRides sd ed files)) =
      (sortRides (mergeRides sd ed files)).flatMap
        (fun r => r.gpx.tracks.flatMap Track.segments) :=
    disconnectedSegments_eq _
  rw [← h2]
  rfl

def c5Point (la : ℚ) (t : String) : TrackPoint :=
  { lat := la, lon := la, ele := 0, time := t, name := "", desc := "" }

def c5Gpx1 : GPX :=
  { version := "1.1", creator := "komoot", xmlns := "x",
    tracks := [{ name := "t1", segments := [{ points := [c5Point 1 "2025-08-16T10:00:00.000Z"] }] }] }

def c5Gpx2 : GPX :=
  { version := "1.1", creator := "komoot", xmlns := "x",
    tracks := [{ name := "t2", segments := [{ points := [c5Point 5 "2025-08-20T10:00:00.000Z"] }] }] }

def c5Gpx3 : GPX :=
  { version := "1.1", creator := "komoot", xmlns := "x",
    tracks := [{ name := "t3", segments := [{ points := [c5Point 9 "2025-08-30T10:00:00.000Z"] }] }] }

def c5Files : List (String × GPX) :=
  [("tours/300/tour.gpx", c5Gpx3), ("tours/100/tour.gpx", c5Gpx1), ("tours/200/tour.gpx", c5Gpx2)]

/-- Witness for C5: the spec's scenario (rides on 08-16, 08-20 and an
out-of-range 08-30, range 2025-08-15..2025-08-25) applied to the theorem. -/
theorem merger_disconnected_output_witness :
    mergeByDate false "2025-08-15" "2025-08-25" c5Files =
      .merged { version := "1.1", creator := "Date Range GPX Merger",
                xmlns := "http://www.topografix.com/GPX/1/1",
                tracks := [{ name := "Merged rides " ++ "2025-08-15" ++ " to " ++ "2025-08-25",
                             segments := (sortRides
                                 (mergeRides 1755216000000 1756080000000 c5Files)).flatMap
                               (fun r => r.gpx.tracks.flatMap Track.segments) }] }
    ∧ List.Sorted dateLE (sortRides (mergeRides 1755216000000 1756080000000 c5Files))
    ∧ (sortRides (mergeRides 1755216000000 1756080000000 c5Files)).Perm
        (mergeRides 1755216000000 1756080000000 c5Files) :=
  merger_disconnected_output "2025-08-15" "2025-08-25" c5Files 1755216000000 1756080000000
    (by decide) (by decide) (by decide)

/-! ## Claim C4: timestamp extraction and per-file skipping -/

theorem timeOf_eq_none (p : TrackPoint) :
    timeOf p = none ↔ (p.time = "" ∨ parseTimestamp p.time = none) := by
  unfold timeOf
  by_cases ht : p.time ≠ ""
  · rw [if_pos ht]
    constructor
    · exact fun h => Or.inr h
    · rintro (h | h)
      · exact absurd h ht
      · exact h
  · rw [if_neg ht]
    push_neg at ht
    simp [ht]

theorem timeOf_eq_some {p : TrackPoint} {t : Int} (h : timeOf p = some t) :
    p.time ≠ "" ∧ parseTimestamp p.time = some t := by
  unfold timeOf at h
  by_cases ht : p.time ≠ ""
  · rw [if_pos ht] at h
    exact ⟨ht, h⟩
  · rw [if_neg ht] at h
    exact absurd h (by simp)

theorem findTimeInPoints_eq (pts : List TrackPoint) :
    findTimeInPoints pts = pts.findSome? timeOf := by
  induction pts with
  | nil => rfl
  | cons p ps ih =>
    rw [List.findSome?_cons]
    unfold findTimeInPoints timeOf
    by_cases ht : p.time ≠ ""
    · rw [if_pos ht, if_pos ht]
      cases hp : parseTimestamp p.time with
      | some t => rfl
      | none => exact ih
    · rw [if_neg ht, if_neg ht]
      exact ih

theorem findTimeInSegments_eq (segs : List TrackSegment) :
    findTimeInSegments segs = (segs.flatMap TrackSegment.points).findSome? timeOf := by
  induction segs with
  | nil => rfl
  | cons s ss ih =>
    rw [List.flatMap_cons, List.findSome?_append]
    unfold findTimeInSegments
    rw [findTimeInPoints_eq, ih]
    cases hs : s.points.findSome? timeOf with
    | some t => rfl
    | none => rfl

theorem findTimeInTracks_eq (ts : List Track) :
    findTimeInTracks ts =
      (ts.flatMap (fun t => t.segments.flatMap (fun s => s.points))).findSome? timeOf := by
  induction ts with
  | nil => rfl
  | cons t ts ih =>
    rw [List.flatMap_cons, List.findSome?_append]
    unfold findTimeInTracks
    rw [findTimeInSegments_eq, ih]
    cases hs : (t.segments.flatMap TrackSegment.points).findSome? timeOf with
    | some v => rfl
    | none => rfl

theorem extractRideTime_eq_findSome (g : GPX) :
    extractRideTime g = (flatPoints g).findSome? timeOf :=
  findTimeInTracks_eq g.tracks

theorem findSome?_eq_some_split {α β : Type _} (f : α → Option β) (l : List α) (b : β)
    (h : l.findSome? f = some b) :
    ∃ l1 a l2, l = l1 ++ a :: l2 ∧ f a = some b ∧ ∀ x ∈ l1, f x = none := by
  induction l with
  | nil => exact absurd h (by simp)
  | cons a l ih =>
    rw [List.findSome?_cons] at h
    cases hf : f a with
    | some c =>
      rw [hf] at h
      cases h
      exact ⟨[], a, l, rfl, hf, by simp⟩
    | none =>
      rw [hf] at h
      obtain ⟨l1, x, l2, rfl, hx, hnone⟩ := ih h
      refine ⟨a :: l1, x, l2, rfl, hx, ?_⟩
      intro y hy
      rcases List.mem_cons.mp hy with rfl | hy2
      · exact hf
      · exact hnone y hy2

/-- Claim C4 as amended: the merger derives the ride timestamp from the first
point in document order whose non-empty timestamp parses under the fixed
format; points whose non-empty timestamp fails to parse are logged and passed
over (the scan continues with the next point), and the file is skipped only
when no point yields a successfully parsed timestamp. -/
theorem merger_timestamp_selection :
    ∀ g : GPX,
      (extractRideTime g = (flatPoints g).findSome? timeOf)
      ∧ (extractRideTime g = none ↔
          ∀ p ∈ flatPoints g, p.time = "" ∨ parseTimestamp p.time = none)
      ∧ (∀ t : Int, extractRideTime g = some t →
          ∃ l1 p l2, flatPoints g = l1 ++ p :: l2 ∧ p.time ≠ ""
            ∧ parseTimestamp p.time = some t
            ∧ ∀ q ∈ l1, q.time = "" ∨ parseTimestamp q.time = none)
      ∧ (∀ (sd ed : Int) (fp : String), extractRideTime g = none →
          processFile sd ed fp g = none) := by
  intro g
  refine ⟨extractRideTime_eq_findSome g, ?_, ?_, ?_⟩
  · rw [extractRideTime_eq_findSome, List.findSome?_eq_none_iff]
    constructor
    · intro h p hp
      exact (timeOf_eq_none p).mp (h p hp)
    · intro h p hp
      exact (timeOf_eq_none p).mpr (h p hp)
  · intro t ht
    rw [extractRideTime_eq_findSome] at ht
    obtain ⟨l1, p, l2, heq, hp, hnone⟩ := findSome?_eq_some_split timeOf (flatPoints g) t ht
    obtain ⟨hne, hparse⟩ := timeOf_eq_some hp
    exact ⟨l1, p, l2, heq, hne, hparse, fun q hq => (timeOf_eq_none q).mp (hnone q hq)⟩
  · intro sd ed fp h
    simp [processFile, h]

def c4BadPoint : TrackPoint :=
  { lat := 1, lon := 1, ele := 0, time := "garbage", name := "", desc := "" }

def c4GoodPoint : TrackPoint :=
  { lat := 2, lon := 2, ele := 0, time := "2025-08-16T10:00:00.000Z", name := "", desc := "" }

def c4Gpx : GPX :=
  { version := "1.1", creator := "komoot", xmlns := "x",
    tracks := [{ name := "t", segments := [{ points := [c4BadPoint, c4GoodPoint] }] }] }

/-- Counterexample for C4 as stated: the first point in document order has a
non-empty timestamp "garbage" that fails to parse, yet the file is NOT
skipped — the scan continues and derives the second point's timestamp. -/
theorem merger_timestamp_selection_counterexample :
    (flatPoints c4Gpx).headD zeroPoint = c4BadPoint
    ∧ c4BadPoint.time ≠ ""
    ∧ parseTimestamp c4BadPoint.time = none
    ∧ extractRideTime c4Gpx = some 1755338400000 := by
  decide

def c4NoTimeGpx : GPX :=
  { version := "1.1", creator := "komoot", xmlns := "x",
    tracks := [{ name := "t", segments :=
      [{ points := [{ lat := 1, lon := 1, ele := 0, time := "", name := "", desc := "" }] }] }] }

/-- Witness for the amended C4: a document with no parseable timestamp is
skipped by the per-file step, and in `c4Gpx` the successfully parsed
timestamp comes from a point preceded only by unusable points. -/
theorem merger_timestamp_selection_witness :
    processFile 0 1 "tours/x/tour.gpx" c4NoTimeGpx = none
    ∧ ∃ l1 p l2, flatPoints c4Gpx = l1 ++ p :: l2 ∧ p.time ≠ ""
        ∧ parseTimestamp p.time = some 1755338400000
        ∧ ∀ q ∈ l1, q.time = "" ∨ parseTimestamp q.time = none :=
  ⟨(merger_timestamp_selection c4NoTimeGpx).2.2.2 0 1 "tours/x/tour.gpx" (by decide),
   (merger_timestamp_selection c4Gpx).2.2.1 1755338400000 (by decide)⟩

/-! ## Claim C1: connected-mode connector synthesis -/

theorem firstOfSegments_nil (segs : List TrackSegment) (fp : TrackPoint)
    (h : segs.flatMap TrackSegment.points = []) :
    firstOfSegments segs fp = fp := by
  induction segs with
  | nil => rfl
  | cons s ss ih =>
    rw [List.flatMap_cons, List.append_eq_nil] at h
    unfold firstOfSegments
    rw [if_neg (by simp [h.1])]
    exact ih h.2

theorem firstOfSegments_flat (segs : List TrackSegment) (fp : TrackPoint)
    (h : segs.flatMap TrackSegment.points ≠ []) :
    firstOfSegments segs fp = (segs.flatMap TrackSegment.points).headD zeroPoint := by
  induction segs with
  | nil => exact absurd rfl h
  | cons s ss ih =>
    rw [List.flatMap_cons]
    unfold firstOfSegments
    by_cases hp : s.points = []
    · rw [if_neg (by simp [hp]), hp, List.nil_append]
      rw [List.flatMap_cons, hp, List.nil_append] at h
      exact ih h
    · rw [if_pos hp, headD_append_left _ _ _ hp]
      cases hs : s.points with
      | nil => exact absurd hs hp
      | cons a l => rfl

theorem firstPointAux_flat (ts : List Track) :
    ∀ fp : TrackPoint, fp.lat = 0 →
      ts.flatMap (fun t => t.segments.flatMap (fun s => s.points)) ≠ [] →
      ((ts.flatMap (fun t => t.segments.flatMap (fun s => s.points))).headD zeroPoint).lat ≠ 0 →
      firstPointAux ts fp =
        (ts.flatMap (fun t => t.segments.flatMap (fun s => s.points))).headD zeroPoint := by
  induction ts with
  | nil => intro fp _ hne _; exact absurd rfl hne
  | cons t ts ih =>
    intro fp hfp hne hhead
    rw [List.flatMap_cons] at hne hhead ⊢
    unfold firstPointAux
    by_cases hin : t.segments.flatMap (fun s => s.points) = []
    · rw [firstOfSegments_nil _ _ hin]
      rw [if_neg (by simp [hfp])]
      rw [hin, List.nil_append] at hne hhead ⊢
      exact ih fp hfp hne hhead
    · rw [firstOfSegments_flat _ _ hin, headD_append_left _ _ _ hin] at *
      rw [if_pos hhead]

/-- Eliminating the accumulated-segment lookups of the connected-mode loop:
from a non-empty accumulator whose last point has non-zero latitude, and
rides that are non-empty with non-zero first and last latitudes, the loop
produces the accumulator followed by the connector-interleaved tail. -/
theorem connectedGo_eq (rs : List RideInfo) :
    ∀ acc : List TrackPoint,
      (∀ r ∈ rs, ridePoints r.gpx ≠ []
        ∧ ((ridePoints r.gpx).headD zeroPoint).lat ≠ 0
        ∧ ((ridePoints r.gpx).getLastD zeroPoint).lat ≠ 0) →
      acc ≠ [] → ((acc.getLastD zeroPoint)).lat ≠ 0 →
      connectedGo rs acc = acc ++ interleaveFrom (acc.getLastD zeroPoint) rs := by
  induction rs with
  | nil =>
    intro acc _ _ _
    rw [connectedGo, interleaveFrom, List.append_nil]
  | cons r rs ih =>
    intro acc hr hacc hlast
    have hhead := hr r (List.mem_cons_self r rs)
    have hstep : connectedGo (r :: rs) acc =
        connectedGo rs
          ((if ((acc.getLastD zeroPoint).lat ≠ 0
              ∧ (firstPointAux r.gpx.tracks zeroPoint).lat ≠ 0) then
            acc ++ [gapPoint (acc.getLastD zeroPoint) (firstPointAux r.gpx.tracks zeroPoint)]
          else acc) ++ ridePoints r.gpx) := rfl
    have hfirst : firstPointAux r.gpx.tracks zeroPoint = (ridePoints r.gpx).headD zeroPoint :=
      firstPointAux_flat r.gpx.tracks zeroPoint rfl hhead.1 hhead.2.1
    have hcond : ((acc.getLastD zeroPoint).lat ≠ 0
        ∧ (firstPointAux r.gpx.tracks zeroPoint).lat ≠ 0) := by
      rw [hfirst]
      exact ⟨hlast, hhead.2.1⟩
    rw [hstep, if_pos hcond]
    have hne2 : (acc ++ [gapPoint (acc.getLastD zeroPoint)
        (firstPointAux r.gpx.tracks zeroPoint)]) ++ ridePoints r.gpx ≠ [] := by
      intro hcontra
      rw [List.append_eq_nil] at hcontra
      exact hhead.1 hcontra.2
    have hlast2 : (((acc ++ [gapPoint (acc.getLastD zeroPoint)
        (firstPointAux r.gpx.tracks zeroPoint)]) ++ ridePoints r.gpx).getLastD zeroPoint).lat
        ≠ 0 := by
      rw [getLastD_append_right _ _ _ hhead.1]
      exact hhead.2.2
    rw [ih _ (fun x hx => hr x (List.mem_cons_of_mem r hx)) hne2 hlast2]
    rw [getLastD_append_right _ _ _ hhead.1]
    rw [interleaveFrom, hfirst]
    simp [List.append_assoc]

theorem countP_interleaveFrom (rs : List RideInfo) :
    ∀ prev : TrackPoint,
      (∀ r ∈ rs, ∀ p ∈ ridePoints r.gpx, p.name ≠ "Gap Connection") →
      (interleaveFrom prev rs).countP (fun p => decide (p.name = "Gap Connection"))
        = rs.length := by
  induction rs with
  | nil => intro prev _; rfl
  | cons r rs ih =>
    intro prev h
    rw [interleaveFrom, List.countP_cons, List.countP_append]
    have h0 : (ridePoints r.gpx).countP (fun p => decide (p.name = "Gap Connection")) = 0 := by
      rw [List.countP_eq_zero]
      intro p hp
      simpa using h r (List.mem_cons_self r rs) p hp
    rw [h0, ih _ (fun x hx => h x (List.mem_cons_of_mem r hx))]
    simp [gapPoint, List.length_cons]

/-- Claim C1 as amended: in connected mode, for rides that are non-empty and
whose first and last points have non-zero latitude, the single output
segment is exactly the rides' point lists with one synthesized midpoint
connector named "Gap Connection" between each pair of consecutive rides
(N-1 connectors for N rides, counted when no input point carries that name).
The exception clause holds in the corrected form: no connector is inserted at
a boundary where the prior ride's last point, or the first-point candidate
produced by the code's track scan over the current ride, has latitude exactly
0 (for a single-track current ride that candidate is its first point; a
multi-track ride whose first point has latitude 0 may still receive a
connector, computed against a later track's first point — see the
counterexample). -/
theorem merger_connected_midpoints :
    (∀ rides : List RideInfo,
      (∀ r ∈ rides, ridePoints r.gpx ≠ []
        ∧ ((ridePoints r.gpx).headD zeroPoint).lat ≠ 0
        ∧ ((ridePoints r.gpx).getLastD zeroPoint).lat ≠ 0) →
      connectedPoints rides = interleaveMid rides
      ∧ ((∀ r ∈ rides, ∀ p ∈ ridePoints r.gpx, p.name ≠ "Gap Connection") →
          (connectedPoints rides).countP (fun p => decide (p.name = "Gap Connection"))
            = rides.length - 1))
    ∧ (∀ r1 r2 : RideInfo, ridePoints r1.gpx ≠ [] →
        (((ridePoints r1.gpx).getLastD zeroPoint).lat = 0
          ∨ (firstPointAux r2.gpx.tracks zeroPoint).lat = 0) →
        connectedPoints [r1, r2] = ridePoints r1.gpx ++ ridePoints r2.gpx) := by
  constructor
  · intro rides h
    have heq : connectedPoints rides = interleaveMid rides := by
      cases rides with
      | nil => rfl
      | cons r rs =>
        have hr := h r (List.mem_cons_self r rs)
        have : connectedPoints (r :: rs) = connectedGo rs (ridePoints r.gpx) := rfl
        rw [this, connectedGo_eq rs (ridePoints r.gpx)
          (fun x hx => h x (List.mem_cons_of_mem r hx)) hr.1 hr.2.2]
        rfl
    refine ⟨heq, ?_⟩
    intro hnames
    rw [heq]
    cases rides with
    | nil => rfl
    | cons r rs =>
      rw [interleaveMid, List.countP_append]
      have h0 : (ridePoints r.gpx).countP (fun p => decide (p.name = "Gap Connection")) = 0 := by
        rw [List.countP_eq_zero]
        intro p hp
        simpa using hnames r (List.mem_cons_self r rs) p hp
      rw [h0, countP_interleaveFrom rs _ (fun x hx => hnames x (List.mem_cons_of_mem r hx))]
      simp
  · intro r1 r2 hne hdisj
    have hstep : connectedPoints [r1, r2] =
        connectedGo []
          ((if (((ridePoints r1.gpx).getLastD zeroPoint).lat ≠ 0
              ∧ (firstPointAux r2.gpx.tracks zeroPoint).lat ≠ 0) then
            ridePoints r1.gpx ++ [gapPoint ((ridePoints r1.gpx).getLastD zeroPoint)
              (firstPointAux r2.gpx.tracks zeroPoint)]
          else ridePoints r1.gpx) ++ ridePoints r2.gpx) := rfl
    have hnc : ¬ (((ridePoints r1.gpx).getLastD zeroPoint).lat ≠ 0
        ∧ (firstPointAux r2.gpx.tracks zeroPoint).lat ≠ 0) := by
      rcases hdisj with hz | hz
      · exact fun hcontra => hcontra.1 hz
      · exact fun hcontra => hcontra.2 hz
    rw [hstep, if_neg hnc]
    rfl

def c1p1 : TrackPoint :=
  { lat := 1, lon := 1, ele := 0, time := "", name := "", desc := "" }

def c1pz : TrackPoint :=
  { lat := 0, lon := 0, ele := 0, time := "", name := "", desc := "" }

def c1p3 : TrackPoint :=
  { lat := 3, lon := 3, ele := 0, time := "", name := "", desc := "" }

def c1p5 : TrackPoint :=
  { lat := 5, lon := 5, ele := 0, time := "", name := "", desc := "" }

def c1rideA : RideInfo :=
  { filePath := "tours/a/tour.gpx", name := "a", date := 0,
    gpx := { version := "1.1", creator := "c", xmlns := "x",
             tracks := [{ name := "t", segments := [{ points := [c1p1] }] }] } }

/-- A ride whose first track starts at latitude 0 but whose second track does
not: the merger's track scan skips past the latitude-0 candidate. -/
def c1rideB : RideInfo :=
  { filePath := "tours/b/tour.gpx", name := "b", date := 1,
    gpx := { version := "1.1", creator := "c", xmlns := "x",
             tracks := [{ name := "t1", segments := [{ points := [c1pz] }] },
                        { name := "t2", segments := [{ points := [c1p3] }] }] } }

def c1rideC : RideInfo :=
  { filePath := "tours/c/tour.gpx", name := "c", date := 2,
    gpx := { version := "1.1", creator := "c", xmlns := "x",
             tracks := [{ name := "t", segments := [{ points := [c1p5] }] }] } }

def c1rideZ : RideInfo :=
  { filePath := "tours/z/tour.gpx", name := "z", date := 3,
    gpx := { version := "1.1", creator := "c", xmlns := "x",
             tracks := [{ name := "t", segments := [{ points := [c1pz] }] }] } }

/-- Counterexample for C1 as stated: the second ride's first point (document
order) has latitude exactly 0, yet a connector IS synthesized at that
boundary — the track scan picks the second track's first point (3,3) instead,
so the claim's exception clause fails for multi-track rides. -/
theorem merger_connected_midpoints_counterexample :
    ((ridePoints c1rideB.gpx).headD zeroPoint).lat = 0
    ∧ (connectedPoints [c1rideA, c1rideB]).countP
        (fun p => decide (p.name = "Gap Connection")) = 1
    ∧ connectedPoints [c1rideA, c1rideB] = [c1p1, gapPoint c1p1 c1p3, c1pz, c1p3] :=
  ⟨rfl, rfl, rfl⟩

/-- Witness for the amended C1: two single-track rides with non-zero
latitudes get exactly one midpoint connector, and a boundary whose
scan-selected first point has latitude 0 gets none. -/
theorem merger_connected_midpoints_witness :
    connectedPoints [c1rideA, c1rideC] = interleaveMid [c1rideA, c1rideC]
    ∧ (connectedPoints [c1rideA, c1rideC]).countP
        (fun p => decide (p.name = "Gap Connection")) = [c1rideA, c1rideC].length - 1
    ∧ connectedPoints [c1rideA, c1rideZ] = ridePoints c1rideA.gpx ++ ridePoints c1rideZ.gpx :=
  ⟨(merger_connected_midpoints.1 [c1rideA, c1rideC] (by decide)).1,
   (merger_connected_midpoints.1 [c1rideA, c1rideC] (by decide)).2 (by decide),
   merger_connected_midpoints.2 c1rideA c1rideZ (by decide) (by decide)⟩
